import Mathlib

/-!
Verification of the GoBigger simulation core against its source.

The embedding follows `src/gobigger/server/server.py` and
`src/gobigger/managers/food_manager.py`.  The ball classes and the other
managers are not part of the provided sources; where their behaviour is
needed it is either taken as an opaque parameter (so theorems hold for every
behaviour of the missing code) or modelled from the specification, with a
doc comment saying so.
-/

namespace GoBigger

/-- The four ball kinds of the game (`FoodBall`, `ThornsBall`, `SporeBall`,
`CloneBall`). -/
inductive BallKind
  | food
  | thorns
  | spore
  | clone
deriving DecidableEq

/-- A ball as seen by the rules engine: stable identity, kind tag, centre
position, size (mass proxy, `size = radius ^ 2`), clone-specific team and
owner tags, the removed flag and the moving flag.  Kinematic fields
(velocity, acceleration) live in the ball classes, which are not under
`src/`; they are irrelevant to the claims below. -/
structure Ball where
  name : Nat
  kind : BallKind
  posX : ℚ
  posY : ℚ
  size : ℚ
  teamName : Nat
  owner : Nat
  isRemove : Bool
  moving : Bool
deriving DecidableEq

/-- Squared distance between the centres of two balls. -/
def distSq (a b : Ball) : ℚ :=
  (a.posX - b.posX) ^ 2 + (a.posY - b.posY) ^ 2

/-- The manager-owned ball populations touched by `Server.deal_with_collision`:
the player manager's clone balls, the thorns manager's balls, the spore
manager's balls and the food manager's balls. -/
structure GameState where
  playerBalls : List Ball
  thornsBalls : List Ball
  sporeBalls : List Ball
  foodBalls : List Ball
deriving DecidableEq

/-- Write back a mutated ball into a manager's list, keyed by its stable
identity (Python mutates the shared object in place). -/
def updateBall (l : List Ball) (b : Ball) : List Ball :=
  l.map (fun x => if x.name = b.name then b else x)

/-- `remove_balls`: delete a ball from a manager's list by identity. -/
def removeBallByName (l : List Ball) (nm : Nat) : List Ball :=
  l.filter (fun x => x.name ≠ nm)

/-- `PlayerManager.get_clone_num(ball)`: the number of cells the ball's owner
currently has (the player manager file is not under `src/`; the spec gives
`clone_count(cell)` = the number of cells the owner has). -/
def get_clone_num (gs : GameState) (b : Ball) : Nat :=
  (gs.playerBalls.filter (fun x => x.owner = b.owner)).length

/-- Modelled from the spec: plain ingestion (`A.eat(B)`) — the ball classes
are not under `src/`.  "Eats" means `A.size ← A.size + B.size`,
`B.removed ← true`; ingestion does not move `A`. -/
def eatBall (a b : Ball) : Ball × Ball :=
  ({ a with size := a.size + b.size }, { b with isRemove := true })

/-- The combined effect of a clone-eats-clone resolution on the player
manager: the winner's entry grows by the loser's size and the loser's entry
is deleted (server.py lines 246–248 and the symmetric lines below them). -/
def eatAndRemove (gs : GameState) (winner loser : Ball) : GameState :=
  { gs with
      playerBalls :=
        removeBallByName
          (updateBall gs.playerBalls
            { winner with size := winner.size + loser.size })
          loser.name }

/-- Opaque behaviour of the missing ball code used by the Clone-eats-Thorn
path: how an eater shatters into children.  Theorems about the rules engine
hold for every `explode` behaviour. -/
structure BallPhysics where
  explode : Ball → Nat → Ball × List Ball
  partNumMax : Nat

/-- Modelled from the spec: `CloneBall.eat` on a `ThornsBall` (the clone ball
class is not under `src/`).  The eater's size grows by the thorn's size; when
the owner's cell count is below `part_num_max` the eater shatters and the
call returns the list of new balls, otherwise it returns no list. -/
def cloneEatThorn (ph : BallPhysics) (c t : Ball) (cloneNum : Nat) :
    Ball × Ball × Option (List Ball) :=
  let c2 : Ball := { c with size := c.size + t.size }
  let t2 : Ball := { t with isRemove := true }
  if cloneNum < ph.partNumMax then
    let r := ph.explode c2 cloneNum
    (r.1, t2, some r.2)
  else
    (c2, t2, none)

/-- Modelled from the spec: `ThornsBall.eat` on a `SporeBall` (the thorn ball
class is not under `src/`): the thorn absorbs the spore's size and starts
moving in the spore's direction. -/
def thornEatSpore (t s : Ball) : Ball :=
  { t with size := t.size + s.size, moving := true }

/-- `Server.deal_with_collision` (server.py lines 241–288), transcribed
branch for branch, including the duplicated `ThornsBall` test of the outer
dispatch (lines 273 and 283). -/
def deal_with_collision (ph : BallPhysics) (gs : GameState) (mb tb : Ball) :
    GameState :=
  if mb.isRemove = false ∧ tb.isRemove = false then
    if mb.kind = BallKind.clone then
      if tb.kind = BallKind.clone then
        if mb.teamName ≠ tb.teamName then
          if tb.size < mb.size then
            let e := eatBall mb tb
            { gs with playerBalls :=
                removeBallByName (updateBall gs.playerBalls e.1) tb.name }
          else
            let e := eatBall tb mb
            { gs with playerBalls :=
                removeBallByName (updateBall gs.playerBalls e.1) mb.name }
        else if mb.owner ≠ tb.owner then
          if tb.size < mb.size then
            if 1 < get_clone_num gs tb then
              let e := eatBall mb tb
              { gs with playerBalls :=
                  removeBallByName (updateBall gs.playerBalls e.1) tb.name }
            else gs
          else
            if 1 < get_clone_num gs mb then
              let e := eatBall tb mb
              { gs with playerBalls :=
                  removeBallByName (updateBall gs.playerBalls e.1) mb.name }
            else gs
        else gs
      else if tb.kind = BallKind.food then
        let e := eatBall mb tb
        { gs with playerBalls := updateBall gs.playerBalls e.1,
                  foodBalls := removeBallByName gs.foodBalls tb.name }
      else if tb.kind = BallKind.spore then
        let e := eatBall mb tb
        { gs with playerBalls := updateBall gs.playerBalls e.1,
                  sporeBalls := removeBallByName gs.sporeBalls tb.name }
      else if tb.kind = BallKind.thorns then
        if tb.size < mb.size then
          let r := cloneEatThorn ph mb tb (get_clone_num gs mb)
          let gs2 : GameState :=
            { gs with playerBalls := updateBall gs.playerBalls r.1,
                      thornsBalls := removeBallByName gs.thornsBalls tb.name }
          match r.2.2 with
          | some children =>
              { gs2 with playerBalls := gs2.playerBalls ++ children }
          | none => gs2
        else gs
      else gs
    else if mb.kind = BallKind.thorns then
      if tb.kind = BallKind.clone then
        if mb.size < tb.size then
          let r := cloneEatThorn ph tb mb (get_clone_num gs tb)
          let gs2 : GameState :=
            { gs with playerBalls := updateBall gs.playerBalls r.1,
                      thornsBalls := removeBallByName gs.thornsBalls mb.name }
          match r.2.2 with
          | some children =>
              { gs2 with playerBalls := gs2.playerBalls ++ children }
          | none => gs2
        else gs
      else if tb.kind = BallKind.spore then
        { gs with thornsBalls := updateBall gs.thornsBalls (thornEatSpore mb tb),
                  sporeBalls := removeBallByName gs.sporeBalls tb.name }
      else gs
    else if mb.kind = BallKind.thorns then
      -- server.py line 283: the dead second `ThornsBall` arm of the dispatch
      if tb.kind = BallKind.clone ∨ tb.kind = BallKind.thorns then
        let e := eatBall tb mb
        { gs with playerBalls := updateBall gs.playerBalls e.1,
                  thornsBalls := updateBall gs.thornsBalls e.1,
                  sporeBalls := removeBallByName gs.sporeBalls mb.name }
      else gs
    else gs
  else gs

/-- The arms of the outer kind dispatch of `deal_with_collision`:
the early-return when a ball is already removed, the `CloneBall` arm
(line 243), the first `ThornsBall` arm (line 273), the second — duplicated —
`ThornsBall` arm (line 283), and the implicit fall-through. -/
inductive CollisionBranch
  | skip
  | cloneCase
  | thornFirst
  | thornSecond
  | noCase
deriving DecidableEq

/-- The guard structure of `deal_with_collision`'s outer dispatch, condition
for condition as in server.py lines 242, 243, 273 and 283. -/
def collisionDispatch (mb tb : Ball) : CollisionBranch :=
  if mb.isRemove = false ∧ tb.isRemove = false then
    if mb.kind = BallKind.clone then CollisionBranch.cloneCase
    else if mb.kind = BallKind.thorns then CollisionBranch.thornFirst
    else if mb.kind = BallKind.thorns then CollisionBranch.thornSecond
    else CollisionBranch.noCase
  else CollisionBranch.skip

/-- A concrete behaviour for the opaque parts, used only to instantiate
theorems at concrete inputs: no shattering, default `part_num_max = 16`. -/
def trivialPhysics : BallPhysics :=
  { explode := fun c _ => (c, []), partNumMax := 16 }

/-- Like `trivialPhysics` but with `part_num_max = 1`, so the Clone-eats-Thorn
path never shatters (the owner always has at least one cell). -/
def thornBugPhysics : BallPhysics :=
  { explode := fun c _ => (c, []), partNumMax := 1 }

/-- C3: when the rules engine handles two overlapping clones of different
teams, neither removed, the strictly larger one eats the other — the winner's
size becomes the sum and the loser is removed from the player manager. -/
theorem clone_clone_diff_team_larger_eats (ph : BallPhysics) (gs : GameState)
    (mb tb : Ball)
    (hm : mb.isRemove = false) (ht : tb.isRemove = false)
    (hmk : mb.kind = BallKind.clone) (htk : tb.kind = BallKind.clone)
    (hteam : mb.teamName ≠ tb.teamName) :
    (tb.size < mb.size →
      deal_with_collision ph gs mb tb = eatAndRemove gs mb tb) ∧
    (mb.size < tb.size →
      deal_with_collision ph gs mb tb = eatAndRemove gs tb mb) := by
  constructor <;> intro hsz
  · unfold deal_with_collision
    rw [if_pos ⟨hm, ht⟩, if_pos hmk, if_pos htk, if_pos hteam, if_pos hsz]
    rfl
  · unfold deal_with_collision
    rw [if_pos ⟨hm, ht⟩, if_pos hmk, if_pos htk, if_pos hteam,
      if_neg (lt_asymm hsz)]
    rfl

/-- First clone of scenario S2: size 100, team 0, owner 0. -/
def cloneA : Ball :=
  { name := 1, kind := BallKind.clone, posX := 0, posY := 0, size := 100,
    teamName := 0, owner := 0, isRemove := false, moving := true }

/-- Second clone of scenario S2: size 80, team 1, owner 3, coincident centre. -/
def cloneB : Ball :=
  { name := 2, kind := BallKind.clone, posX := 0, posY := 0, size := 80,
    teamName := 1, owner := 3, isRemove := false, moving := true }

/-- The manager state of scenario S2: just the two clones. -/
def gsS2 : GameState :=
  { playerBalls := [cloneA, cloneB], thornsBalls := [], sporeBalls := [],
    foodBalls := [] }

/-- C3 witness (scenario S2): clones of sizes 100 and 80 from different teams;
after the collision the 80 is gone and the survivor has size 180. -/
theorem clone_clone_diff_team_larger_eats_witness :
    deal_with_collision trivialPhysics gsS2 cloneA cloneB =
      { playerBalls := [{ cloneA with size := 180 }], thornsBalls := [],
        sporeBalls := [], foodBalls := [] } := by
  have h := clone_clone_diff_team_larger_eats trivialPhysics gsS2 cloneA cloneB
    rfl rfl rfl rfl (by decide)
  rw [h.1 (by norm_num [cloneA, cloneB])]
  simp [eatAndRemove, gsS2, cloneA, cloneB, updateBall, removeBallByName]
  norm_num

/-- C2: when the rules engine handles two overlapping clones of the same team
but different owners, neither removed, the strictly larger one eats the
smaller exactly when the smaller one's owner has more than one cell; when the
owner has a single cell the pair leaves the state unchanged. -/
theorem clone_clone_same_team_diff_owner (ph : BallPhysics) (gs : GameState)
    (mb tb : Ball)
    (hm : mb.isRemove = false) (ht : tb.isRemove = false)
    (hmk : mb.kind = BallKind.clone) (htk : tb.kind = BallKind.clone)
    (hteam : mb.teamName = tb.teamName) (howner : mb.owner ≠ tb.owner) :
    (tb.size < mb.size →
      (1 < get_clone_num gs tb →
        deal_with_collision ph gs mb tb = eatAndRemove gs mb tb) ∧
      (¬ 1 < get_clone_num gs tb → deal_with_collision ph gs mb tb = gs)) ∧
    (mb.size < tb.size →
      (1 < get_clone_num gs mb →
        deal_with_collision ph gs mb tb = eatAndRemove gs tb mb) ∧
      (¬ 1 < get_clone_num gs mb → deal_with_collision ph gs mb tb = gs)) := by
  constructor <;> intro hsz <;> constructor <;> intro hnum <;>
    unfold deal_with_collision
  · rw [if_pos ⟨hm, ht⟩, if_pos hmk, if_pos htk,
      if_neg (by simp [hteam]), if_pos howner, if_pos hsz, if_pos hnum]
    rfl
  · rw [if_pos ⟨hm, ht⟩, if_pos hmk, if_pos htk,
      if_neg (by simp [hteam]), if_pos howner, if_pos hsz, if_neg hnum]
  · rw [if_pos ⟨hm, ht⟩, if_pos hmk, if_pos htk,
      if_neg (by simp [hteam]), if_pos howner, if_neg (lt_asymm hsz),
      if_pos hnum]
    rfl
  · rw [if_pos ⟨hm, ht⟩, if_pos hmk, if_pos htk,
      if_neg (by simp [hteam]), if_pos howner, if_neg (lt_asymm hsz),
      if_neg hnum]

/-- Same-team clone, size 100, owner 0. -/
def cloneC : Ball :=
  { name := 5, kind := BallKind.clone, posX := 0, posY := 0, size := 100,
    teamName := 0, owner := 0, isRemove := false, moving := true }

/-- Same-team clone, size 80, owner 3 (owner 3 has two cells). -/
def cloneD : Ball :=
  { name := 6, kind := BallKind.clone, posX := 0, posY := 0, size := 80,
    teamName := 0, owner := 3, isRemove := false, moving := true }

/-- A second cell of owner 3, so that owner 3 has more than one cell. -/
def cloneE : Ball :=
  { name := 7, kind := BallKind.clone, posX := 9, posY := 0, size := 9,
    teamName := 0, owner := 3, isRemove := false, moving := true }

/-- Manager state for the C2 witness: owner 0 has one cell, owner 3 has two. -/
def gsC2 : GameState :=
  { playerBalls := [cloneC, cloneD, cloneE], thornsBalls := [],
    sporeBalls := [], foodBalls := [] }

/-- C2 witness: same team, owners 0 and 3, sizes 100 and 80; the loser's
owner has 2 cells, so the larger clone eats the smaller one. -/
theorem clone_clone_same_team_diff_owner_witness :
    deal_with_collision trivialPhysics gsC2 cloneC cloneD =
      { playerBalls := [{ cloneC with size := 180 }, cloneE],
        thornsBalls := [], sporeBalls := [], foodBalls := [] } := by
  have h := clone_clone_same_team_diff_owner trivialPhysics gsC2 cloneC cloneD
    rfl rfl rfl rfl rfl (by decide)
  rw [(h.1 (by norm_num [cloneC, cloneD])).1
    (by simp [get_clone_num, gsC2, cloneC, cloneD, cloneE, List.filter])]
  simp [eatAndRemove, gsC2, cloneC, cloneD, cloneE, updateBall,
    removeBallByName]
  norm_num

/-- C7: the second `ThornsBall` arm of the outer dispatch in
`deal_with_collision` (server.py line 283) is dead: no pair of balls ever
reaches it, because its guard repeats the guard of the arm before it. -/
theorem thorn_second_branch_unreachable (mb tb : Ball) :
    collisionDispatch mb tb ≠ CollisionBranch.thornSecond := by
  unfold collisionDispatch
  split_ifs with h1 h2 h3 <;> simp_all

/-- The clone of the C4 failing input: radius 10 (size 100), centred at the
origin, sole cell of its owner. -/
def cloneC4 : Ball :=
  { name := 10, kind := BallKind.clone, posX := 0, posY := 0, size := 100,
    teamName := 0, owner := 0, isRemove := false, moving := true }

/-- The thorn of the C4 failing input: radius 8 (size 64), centred at
(15, 0) — overlapping the clone but with its centre outside it. -/
def thornC4 : Ball :=
  { name := 11, kind := BallKind.thorns, posX := 15, posY := 0, size := 64,
    teamName := 0, owner := 0, isRemove := false, moving := false }

/-- The manager state of the C4 failing input. -/
def gsC4 : GameState :=
  { playerBalls := [cloneC4], thornsBalls := [thornC4], sporeBalls := [],
    foodBalls := [] }

/-- C4 (code bug, evaluated at the failing input): the clone has radius 10
and the thorn's centre is 15 away, so the centre is outside the clone
(squared distance 225 > squared radius 100) while the discs still overlap
(225 < (10+8)² = 324); the claim — and the rule stated in the server's own
docstring — says nothing may happen, yet `deal_with_collision` eats the
thorn: its manager is emptied and the clone's size grows to 164. -/
theorem clone_thorn_eats_without_center_hit :
    cloneC4.size < distSq cloneC4 thornC4 ∧
    distSq cloneC4 thornC4 < (10 + 8) ^ 2 ∧
    deal_with_collision thornBugPhysics gsC4 cloneC4 thornC4 =
      { playerBalls := [{ cloneC4 with size := 164 }], thornsBalls := [],
        sporeBalls := [], foodBalls := [] } ∧
    deal_with_collision thornBugPhysics gsC4 cloneC4 thornC4 ≠ gsC4 := by
  have heval : deal_with_collision thornBugPhysics gsC4 cloneC4 thornC4 =
      { playerBalls := [{ cloneC4 with size := 164 }], thornsBalls := [],
        sporeBalls := [], foodBalls := [] } := by
    unfold deal_with_collision
    norm_num [gsC4, cloneC4, thornC4, cloneEatThorn, thornBugPhysics,
      get_clone_num, updateBall, removeBallByName, List.filter]
    simp [eatBall]
  refine ⟨by norm_num [distSq, cloneC4, thornC4],
    by norm_num [distSq, cloneC4, thornC4], heval, ?_⟩
  rw [heval]
  simp [gsC4]

/-- A player as the server sees it: a name (the action key) and the list of
its clone balls. -/
structure Player where
  pname : Nat
  balls : List Ball
deriving DecidableEq

/-- One player action, `(direction_x, direction_y, action_type)` with
`None` encoded as `Option.none`. -/
structure PAction where
  dirX : Option ℚ
  dirY : Option ℚ
  actionType : Nat
deriving DecidableEq

/-- The kinematics and manager operations that live in the ball and manager
modules, which are not under `src/`: `Vector2.normalize`, `player.move`,
`player.eject`, `player.split`, `player.stop`, `ThornsBall.move`,
`SporeBall.move` and `PlayerManager.adjust`.  `step_state_tick`'s list
construction is proved for every behaviour of these operations. -/
structure Physics where
  normalizeDir : ℚ × ℚ → ℚ × ℚ
  movePlayer : Option (ℚ × ℚ) → Player → Player
  ejectPlayer : Player → Player × List Ball
  splitPlayer : Player → Player × List Ball
  stopPlayer : Player → Player
  moveThorn : Ball → Ball
  moveSpore : Ball → Ball
  adjust : List Player → List Player

/-- The direction computed at server.py lines 191–194: `None` when either
component is `None`, otherwise the normalized vector. -/
def parseDirection (ph : Physics) (a : PAction) : Option (ℚ × ℚ) :=
  match a.dirX, a.dirY with
  | some dx, some dy => some (ph.normalizeDir (dx, dy))
  | _, _ => none

/-- The action dispatch of server.py lines 195–206 for one player: eject on
type 0, split on type 1, then either stop (type 2) or move; returns the
updated player, the spores to add to the spore manager, and the balls
appended to `moving_balls` (empty for a stopped player). -/
def processPlayerWithAction (ph : Physics) (a : PAction) (p : Player) :
    Player × List Ball × List Ball :=
  let r1 := if a.actionType = 0 then ph.ejectPlayer p else (p, [])
  let p1 := r1.1
  let p2 :=
    if a.actionType = 1 then
      let r2 := ph.splitPlayer p1
      { r2.1 with balls := r2.1.balls ++ r2.2 }
    else p1
  if a.actionType = 2 then
    (ph.stopPlayer p2, r1.2, [])
  else
    let p3 := ph.movePlayer (parseDirection ph a) p2
    (p3, r1.2, p3.balls)

/-- The state of `processPlayerWithAction` just before the stop/move test
(after the eject and split arms). -/
def afterEjectSplit (ph : Physics) (a : PAction) (p : Player) :
    Player × List Ball :=
  let r1 := if a.actionType = 0 then ph.ejectPlayer p else (p, [])
  let p1 := r1.1
  let p2 :=
    if a.actionType = 1 then
      let r2 := ph.splitPlayer p1
      { r2.1 with balls := r2.1.balls ++ r2.2 }
    else p1
  (p2, r1.2)

/-- The per-player loop of server.py lines 189–206 (actions present):
accumulates the updated players, the ejected spores and `moving_balls`. -/
def actionPhase (ph : Physics) (acts : Nat → PAction) (ps : List Player) :
    List Player × List Ball × List Ball :=
  ps.foldl
    (fun acc p =>
      let r := processPlayerWithAction ph (acts p.pname) p
      (acc.1 ++ [r.1], acc.2.1 ++ r.2.1, acc.2.2 ++ r.2.2))
    ([], [], [])

/-- The per-player loop of server.py lines 208–211 (no actions): every
player moves, and its balls go to both `moving_balls` and `total_balls`. -/
def noActionPhase (ph : Physics) (ps : List Player) :
    List Player × List Ball × List Ball :=
  ps.foldl
    (fun acc p =>
      let p2 := ph.movePlayer none p
      (acc.1 ++ [p2], acc.2.1 ++ p2.balls, acc.2.2 ++ p2.balls))
    ([], [], [])

/-- Python's `sorted(moving_balls, reverse=True)` where ball comparison is
by size: a stable sort by size descending. -/
def sizeDescOrder (a b : Ball) : Prop := b.size ≤ a.size

instance : DecidableRel sizeDescOrder :=
  fun a b => inferInstanceAs (Decidable (b.size ≤ a.size))

instance : IsTotal Ball sizeDescOrder :=
  ⟨fun a b => le_total b.size a.size⟩

instance : IsTrans Ball sizeDescOrder :=
  ⟨fun _ _ _ h1 h2 => le_trans h2 h1⟩

/-- The sort applied to `moving_balls` at server.py line 212. -/
def sortDesc (l : List Ball) : List Ball :=
  List.insertionSort sizeDescOrder l

/-- The thorn loop of server.py lines 214–217: every thorn is moved when its
`moving` flag is set, and every thorn — moving or not — is appended to
`moving_balls` after the sort. -/
def thornPhase (ph : Physics) (ts : List Ball) (mv : List Ball) :
    List Ball × List Ball :=
  ts.foldl
    (fun acc t =>
      let t2 := if t.moving then ph.moveThorn t else t
      (acc.1 ++ [t2], acc.2 ++ [t2]))
    ([], mv)

/-- `PlayerManager.get_balls()`: all players' balls in manager order. -/
def playerManagerBalls (ps : List Player) : List Ball :=
  (ps.map Player.balls).flatten

/-- The world handled by `step_state_tick`: the four managers' populations,
with players carrying their clone balls. -/
structure World where
  players : List Player
  thorns : List Ball
  spores : List Ball
  foods : List Ball
deriving DecidableEq

/-- `Server.step_state_tick` (server.py lines 178–228) through the call to
`collision_detection.solve`: returns the updated world, the `moving_balls`
list and the `total_balls` list exactly as they are handed to the collision
index. -/
def step_state_tick_lists (ph : Physics) (w : World)
    (actions : Option (Nat → PAction)) :
    World × List Ball × List Ball :=
  let phase :=
    match actions with
    | some acts =>
        let r := actionPhase ph acts w.players
        (r.1, w.spores ++ r.2.1, r.2.2, ([] : List Ball))
    | none =>
        let r := noActionPhase ph w.players
        (r.1, w.spores, r.2.1, r.2.2)
  let players1 := phase.1
  let spores1 := phase.2.1
  let movingBalls1 := sortDesc phase.2.2.1
  let totalBalls0 := phase.2.2.2
  let tres := thornPhase ph w.thorns movingBalls1
  let thorns2 := tres.1
  let movingBalls2 := tres.2
  let spores2 := spores1.map (fun s => if s.moving then ph.moveSpore s else s)
  let players2 := ph.adjust players1
  let totalBalls := totalBalls0 ++ playerManagerBalls players2 ++ thorns2 ++
    spores2 ++ w.foods
  ({ players := players2, thorns := thorns2, spores := spores2,
     foods := w.foods },
   movingBalls2, totalBalls)

/-- The thorn balls after the thorn loop: each moved iff its `moving` flag
is set. -/
def movedThorns (ph : Physics) (ts : List Ball) : List Ball :=
  ts.map (fun t => if t.moving then ph.moveThorn t else t)

theorem thornPhase_eq (ph : Physics) (ts : List Ball) (a b : List Ball) :
    thornPhase ph ts (b) = (movedThorns ph ts, b ++ movedThorns ph ts) ∧
    ts.foldl
      (fun acc t =>
        let t2 := if t.moving then ph.moveThorn t else t
        (acc.1 ++ [t2], acc.2 ++ [t2]))
      (a, b) = (a ++ movedThorns ph ts, b ++ movedThorns ph ts) := by
  have key : ∀ (l : List Ball) (a b : List Ball),
      l.foldl
        (fun acc t =>
          let t2 := if t.moving then ph.moveThorn t else t
          (acc.1 ++ [t2], acc.2 ++ [t2]))
        (a, b) = (a ++ movedThorns ph l, b ++ movedThorns ph l) := by
    intro l
    induction l with
    | nil => intro a b; simp [movedThorns]
    | cons t l ih =>
        intro a b
        simp only [List.foldl_cons, ih, movedThorns, List.map_cons,
          List.append_assoc, List.singleton_append]
  exact ⟨key ts [] b, key ts a b⟩

/-- The clone balls accumulated into `moving_balls` by the per-player loops
of `step_state_tick` (the players that executed the move branch). -/
def movedCloneBalls (ph : Physics) (w : World)
    (actions : Option (Nat → PAction)) : List Ball :=
  match actions with
  | some acts => (actionPhase ph acts w.players).2.2
  | none => (noActionPhase ph w.players).2.1

/-- C1 (amended): the `moving` list handed to the collision index is the
clone balls accumulated by the per-player loops, sorted by size descending,
followed by ALL thorn balls (moving or not) appended after the sort; the
clone prefix is sorted but the appended thorns are not merged into the
order, and moving spores are never included. -/
theorem moving_list_sorted_clones_then_all_thorns (ph : Physics) (w : World)
    (actions : Option (Nat → PAction)) :
    (step_state_tick_lists ph w actions).2.1 =
      sortDesc (movedCloneBalls ph w actions) ++
        (step_state_tick_lists ph w actions).1.thorns ∧
    List.Sorted sizeDescOrder (sortDesc (movedCloneBalls ph w actions)) := by
  constructor
  · cases actions with
    | some acts =>
        simp [step_state_tick_lists, movedCloneBalls,
          (thornPhase_eq ph w.thorns [] (sortDesc (actionPhase ph acts
            w.players).2.2)).1]
    | none =>
        simp [step_state_tick_lists, movedCloneBalls,
          (thornPhase_eq ph w.thorns [] (sortDesc (noActionPhase ph
            w.players).2.1)).1]
  · exact List.sorted_insertionSort sizeDescOrder _

/-- A concrete instantiation of the opaque kinematics, used only to evaluate
the embedding at concrete inputs: every operation leaves its argument
unchanged and produces nothing. -/
def idPhysics : Physics :=
  { normalizeDir := fun d => d
    movePlayer := fun _ p => p
    ejectPlayer := fun p => (p, [])
    splitPlayer := fun p => (p, [])
    stopPlayer := fun p => p
    moveThorn := fun t => t
    moveSpore := fun s => s
    adjust := fun ps => ps }

/-- The `moving` list as claim C1 words it: all Clone balls plus the moving
Thorn balls and the moving Spore balls, sorted by size descending. -/
def claimedMovingList (w : World) : List Ball :=
  sortDesc (playerManagerBalls w.players ++
    w.thorns.filter (fun t => t.moving) ++
    w.spores.filter (fun s => s.moving))

/-- A stationary thorn (size 9). -/
def thornT0 : Ball :=
  { name := 20, kind := BallKind.thorns, posX := 0, posY := 0, size := 9,
    teamName := 0, owner := 0, isRemove := false, moving := false }

/-- A moving spore (size 3). -/
def sporeS0 : Ball :=
  { name := 21, kind := BallKind.spore, posX := 3, posY := 0, size := 3,
    teamName := 0, owner := 0, isRemove := false, moving := true }

/-- The C1 counterexample world: no players, one stationary thorn and one
moving spore. -/
def wC1 : World :=
  { players := [], thorns := [thornT0], spores := [sporeS0], foods := [] }

/-- C1 counterexample: on `wC1` the code passes `[thornT0]` to the collision
index — the stationary thorn is included and the moving spore is not — while
the claimed list is `[sporeS0]`. -/
theorem moving_list_claim_false :
    (step_state_tick_lists idPhysics wC1 none).2.1 = [thornT0] ∧
    claimedMovingList wC1 = [sporeS0] ∧
    (step_state_tick_lists idPhysics wC1 none).2.1 ≠ claimedMovingList wC1 := by
  refine ⟨?_, ?_, ?_⟩ <;>
    simp [step_state_tick_lists, claimedMovingList, noActionPhase,
      thornPhase, sortDesc, playerManagerBalls, wC1, thornT0, sporeS0,
      List.insertionSort, idPhysics]

theorem noActionPhase_eq (ph : Physics) (ps : List Player) :
    noActionPhase ph ps =
      (ps.map (ph.movePlayer none),
       playerManagerBalls (ps.map (ph.movePlayer none)),
       playerManagerBalls (ps.map (ph.movePlayer none))) := by
  have key : ∀ (l : List Player) (a b : List Ball) (d : List Player),
      l.foldl
        (fun acc p =>
          (acc.1 ++ [ph.movePlayer none p],
           acc.2.1 ++ (ph.movePlayer none p).balls,
           acc.2.2 ++ (ph.movePlayer none p).balls))
        (d, a, b) =
      (d ++ l.map (ph.movePlayer none),
       a ++ playerManagerBalls (l.map (ph.movePlayer none)),
       b ++ playerManagerBalls (l.map (ph.movePlayer none))) := by
    intro l
    induction l with
    | nil => intro a b d; simp [playerManagerBalls]
    | cons p l ih =>
        intro a b d
        rw [List.foldl_cons, ih]
        simp [playerManagerBalls, List.append_assoc]
  have h := key ps [] [] []
  simpa [noActionPhase] using h

/-- C6: with `actions = None`, each player's balls are accumulated into
`total_balls` in the per-player loop and the whole player manager is
extended into `total_balls` again afterwards, so every clone ball the player
manager holds at the collision call occurs at least twice (by identity) in
`total_balls`.  The only assumption on the missing `PlayerManager.adjust`
code is that it introduces no ball identity that was not already there. -/
theorem total_balls_duplicates_no_action (ph : Physics) (w : World)
    (hadj : ∀ ps : List Player, ∀ b ∈ playerManagerBalls (ph.adjust ps),
      b.name ∈ (playerManagerBalls ps).map Ball.name) :
    ∀ b ∈ playerManagerBalls (step_state_tick_lists ph w none).1.players,
      2 ≤ ((step_state_tick_lists ph w none).2.2.map Ball.name).count b.name := by
  intro b hb
  have hworld :
      (step_state_tick_lists ph w none).1.players =
        ph.adjust (w.players.map (ph.movePlayer none)) := by
    simp [step_state_tick_lists, noActionPhase_eq]
  have htotal :
      (step_state_tick_lists ph w none).2.2 =
        playerManagerBalls (w.players.map (ph.movePlayer none)) ++
          (playerManagerBalls
            (ph.adjust (w.players.map (ph.movePlayer none))) ++
            ((step_state_tick_lists ph w none).1.thorns ++
              ((step_state_tick_lists ph w none).1.spores ++ w.foods))) := by
    simp [step_state_tick_lists, noActionPhase_eq, List.append_assoc]
  rw [hworld] at hb
  have h1 : b.name ∈
      (playerManagerBalls (w.players.map (ph.movePlayer none))).map
        Ball.name :=
    hadj _ b hb
  have h2 : b.name ∈
      (playerManagerBalls
        (ph.adjust (w.players.map (ph.movePlayer none)))).map Ball.name :=
    List.mem_map_of_mem Ball.name hb
  rw [htotal]
  simp only [List.map_append, List.count_append]
  have c1 : 1 ≤ (((playerManagerBalls
      (w.players.map (ph.movePlayer none))).map Ball.name).count b.name) :=
    List.count_pos_iff.mpr h1
  have c2 : 1 ≤ (((playerManagerBalls
      (ph.adjust (w.players.map (ph.movePlayer none)))).map
        Ball.name).count b.name) :=
    List.count_pos_iff.mpr h2
  omega

/-- A clone ball used in concrete instantiations. -/
def ballW : Ball :=
  { name := 0, kind := BallKind.clone, posX := 1, posY := 1, size := 9,
    teamName := 0, owner := 0, isRemove := false, moving := true }

/-- A world with one player owning one ball and nothing else. -/
def wC6 : World :=
  { players := [{ pname := 0, balls := [ballW] }], thorns := [],
    spores := [], foods := [] }

/-- C6 witness: with identity kinematics and a single player holding a
single ball, that ball's identity occurs (at least) twice in `total_balls`. -/
theorem total_balls_duplicates_no_action_witness :
    2 ≤ ((step_state_tick_lists idPhysics wC6 none).2.2.map Ball.name).count
      ballW.name := by
  refine total_balls_duplicates_no_action idPhysics wC6
    (fun ps b hb => List.mem_map_of_mem Ball.name hb) ballW ?_
  simp [step_state_tick_lists, noActionPhase, playerManagerBalls, wC6,
    idPhysics]

/-- C10: the stop/move alternative of server.py lines 202–206 is attached
only to the `action_type == 2` test, so a player whose action has type 0
(eject) or type 1 (split) still executes the move branch in the same state
tick — `player.move` is applied and the player's balls are appended to the
moving set — while a player whose action has type 2 executes `stop` and its
balls are excluded from the moving set. -/
theorem eject_split_also_move_stop_excluded (ph : Physics) (a : PAction)
    (p : Player) :
    (a.actionType = 0 ∨ a.actionType = 1 →
      (processPlayerWithAction ph a p).1 =
        ph.movePlayer (parseDirection ph a) (afterEjectSplit ph a p).1 ∧
      (processPlayerWithAction ph a p).2.2 =
        (processPlayerWithAction ph a p).1.balls) ∧
    (a.actionType = 2 →
      (processPlayerWithAction ph a p).1 =
        ph.stopPlayer (afterEjectSplit ph a p).1 ∧
      (processPlayerWithAction ph a p).2.2 = []) := by
  constructor
  · rintro (h | h) <;>
      simp [processPlayerWithAction, afterEjectSplit, h]
  · intro h
    simp [processPlayerWithAction, afterEjectSplit, h]

/-- An eject action with a direction. -/
def actEject : PAction := { dirX := some 1, dirY := some 0, actionType := 0 }

/-- A stop action. -/
def actStop : PAction := { dirX := none, dirY := none, actionType := 2 }

/-- A one-ball player for the C10 witness. -/
def pW : Player := { pname := 0, balls := [ballW] }

/-- C10 witness: at a concrete eject action the player's balls land in the
moving set, and at a concrete stop action the moving set stays empty. -/
theorem eject_split_also_move_stop_excluded_witness :
    (processPlayerWithAction idPhysics actEject pW).2.2 =
      (processPlayerWithAction idPhysics actEject pW).1.balls ∧
    (processPlayerWithAction idPhysics actStop pW).2.2 = [] := by
  constructor
  · exact ((eject_split_also_move_stop_excluded idPhysics actEject pW).1
      (Or.inl rfl)).2
  · exact ((eject_split_also_move_stop_excluded idPhysics actStop pW).2
      rfl).2

/-- The server-level state read and written by `Server.step`: the clock
(`last_time`), the match length, the state-tick duration, the number of
state ticks per action tick, the end flag, and the world handled by
`step_state_tick`. -/
structure ServerS (W : Type) where
  lastTime : ℚ
  matchTime : ℚ
  stateTickDuration : ℚ
  ticksPerAction : Nat
  endFlag : Bool
  world : W

/-- One `step_state_tick` call seen from the server: the world advances by
the tick body (kept opaque, since the collision backends are not under
`src/`) and `last_time` grows by `state_tick_duration` (server.py
line 239). -/
def stateTickS {W A : Type} (tick : Option A → W → W) (s : ServerS W)
    (a : Option A) : ServerS W :=
  { s with world := tick a s.world,
           lastTime := s.lastTime + s.stateTickDuration }

/-- `Server.step` (server.py lines 307–330), instrumented with the list of
arguments passed to `step_state_tick`: returns the `done` flag, the final
server state and that argument list. -/
def serverStep {W A : Type} (tick : Option A → W → W) (s : ServerS W)
    (acts : Option A) : Bool × ServerS W × List (Option A) :=
  if s.matchTime ≤ s.lastTime then
    (true, { s with endFlag := true }, [])
  else if s.endFlag = false then
    let r := (List.range s.ticksPerAction).foldl
      (fun acc i =>
        (stateTickS tick acc.1 (if i = 0 then acts else none),
         acc.2 ++ [if i = 0 then acts else none]))
      (s, ([] : List (Option A)))
    (false, r.1, r.2)
  else (false, s, [])

theorem serverLoop_eq {W A : Type} (tick : Option A → W → W)
    (l : List Nat) (f : Nat → Option A) (s : ServerS W)
    (tr : List (Option A)) :
    l.foldl
      (fun acc i => (stateTickS tick acc.1 (f i), acc.2 ++ [f i]))
      (s, tr) =
    (( l.map f).foldl (stateTickS tick) s, tr ++ l.map f) := by
  induction l generalizing s tr with
  | nil => simp
  | cons i l ih => simp [ih]

theorem range_map_first {A : Type} (acts : Option A) (n : Nat)
    (hn : 1 ≤ n) :
    (List.range n).map (fun i => if i = 0 then acts else none) =
      acts :: List.replicate (n - 1) none := by
  obtain ⟨m, rfl⟩ := Nat.exists_eq_add_of_le hn
  rw [Nat.add_comm]
  rw [List.range_succ_eq_map]
  simp [Function.comp_def, List.map_const', List.length_range]

/-- C5: `Server.step` returns true exactly when `last_time ≥ match_time` at
entry, in which case no state tick runs and the clock and world are
untouched; otherwise, when the end flag is clear, it runs exactly
`ticks_per_action` state ticks — the first with the supplied actions, the
remaining `ticks_per_action − 1` with `None` — and returns false. -/
theorem server_step_spec {W A : Type} (tick : Option A → W → W)
    (s : ServerS W) (acts : Option A) (hn : 1 ≤ s.ticksPerAction) :
    ((serverStep tick s acts).1 = true ↔ s.matchTime ≤ s.lastTime) ∧
    (s.matchTime ≤ s.lastTime →
      (serverStep tick s acts).2.2 = [] ∧
      (serverStep tick s acts).2.1.world = s.world ∧
      (serverStep tick s acts).2.1.lastTime = s.lastTime) ∧
    (¬ s.matchTime ≤ s.lastTime → s.endFlag = false →
      (serverStep tick s acts).1 = false ∧
      (serverStep tick s acts).2.2 =
        acts :: List.replicate (s.ticksPerAction - 1) none ∧
      (serverStep tick s acts).2.1 =
        (acts :: List.replicate (s.ticksPerAction - 1) none).foldl
          (stateTickS tick) s) := by
  by_cases hend : s.matchTime ≤ s.lastTime
  · refine ⟨by simp [serverStep, hend], fun _ => ?_,
      fun hc _ => absurd hend hc⟩
    simp [serverStep, hend]
  · by_cases hflag : s.endFlag = false
    · have hrun : serverStep tick s acts =
          (false,
           (acts :: List.replicate (s.ticksPerAction - 1) none).foldl
             (stateTickS tick) s,
           acts :: List.replicate (s.ticksPerAction - 1) none) := by
        simp only [serverStep, if_neg hend, if_pos hflag]
        rw [serverLoop_eq tick (List.range s.ticksPerAction)
          (fun i => if i = 0 then acts else none) s [],
          range_map_first acts _ hn]
        simp
      exact ⟨by simp [hrun, hend], fun hc => absurd hc hend,
        fun _ _ => ⟨by simp [hrun], by simp [hrun], by simp [hrun]⟩⟩
    · have hrun : serverStep tick s acts = (false, s, []) := by
        simp only [serverStep, if_neg hend, if_neg hflag]
      exact ⟨by simp [hrun, hend], fun hc => absurd hc hend,
        fun _ hf => absurd hf hflag⟩

/-- A server state for concrete evaluation: fresh match, default-style
parameters, a counter world. -/
def sC5 : ServerS Nat :=
  { lastTime := 0, matchTime := 600, stateTickDuration := 1/20,
    ticksPerAction := 4, endFlag := false, world := 0 }

/-- C5 witness: on a fresh state with 4 ticks per action, `step` returns
false and calls `step_state_tick` with the supplied actions once and with
`None` three times. -/
theorem server_step_spec_witness :
    (serverStep (fun (_ : Option Nat) (w : Nat) => w + 1) sC5 (some 7)).1 =
      false ∧
    (serverStep (fun (_ : Option Nat) (w : Nat) => w + 1) sC5 (some 7)).2.2 =
      some 7 :: List.replicate 3 none := by
  have h := server_step_spec (fun (_ : Option Nat) (w : Nat) => w + 1) sC5
    (some 7) (by norm_num [sC5])
  have h2 := h.2.2 (by norm_num [sC5]) rfl
  exact ⟨h2.1, by simpa [sC5] using h2.2.1⟩

/-- The food manager configuration: `refresh_num`, `num_max` and
`refresh_time` (food_manager.py lines 18 and 32–33). -/
structure FoodCfg where
  refresh_num : Nat
  num_max : Nat
  refresh_time : ℚ

/-- `FoodManager` state: its configuration, the refresh clock
(`refresh_time_count`), the ball dictionary modelled as its key list, and a
fresh-name counter standing in for `uuid.uuid1()` (each spawned ball gets a
key never used before). -/
structure FoodManager where
  cfg : FoodCfg
  refresh_time_count : ℚ
  balls : List Nat
  nextName : Nat

/-- `FoodManager.add_balls` on a single ball (dict insert by key: an
existing key is overwritten, keeping the key set; a new key is appended). -/
def FoodManager.add_ball (fm : FoodManager) (nm : Nat) : FoodManager :=
  if nm ∈ fm.balls then fm else { fm with balls := fm.balls ++ [nm] }

/-- `FoodManager.spawn_ball` followed by `add_balls`: draw a fresh name and
insert the new ball. -/
def FoodManager.spawn_add (fm : FoodManager) : FoodManager :=
  FoodManager.add_ball { fm with nextName := fm.nextName + 1 } fm.nextName

/-- The iteration count of `FoodManager.refresh`:
`min(refresh_num, num_max - len(balls))`, with Python's `range` ignoring a
negative bound. -/
def FoodManager.todoNum (fm : FoodManager) : Nat :=
  (min (fm.cfg.refresh_num : ℤ)
    ((fm.cfg.num_max : ℤ) - fm.balls.length)).toNat

/-- `FoodManager.refresh` (food_manager.py lines 32–35): spawn `todo_num`
balls. -/
def FoodManager.refresh (fm : FoodManager) : FoodManager :=
  Nat.iterate FoodManager.spawn_add fm.todoNum fm

/-- `FoodManager.step` (food_manager.py lines 57–61): accumulate the clock;
when it reaches `refresh_time`, refresh and reset the clock. -/
def FoodManager.step (fm : FoodManager) (duration : ℚ) : FoodManager :=
  let fm2 : FoodManager :=
    { fm with refresh_time_count := fm.refresh_time_count + duration }
  if fm2.cfg.refresh_time ≤ fm2.refresh_time_count then
    { fm2.refresh with refresh_time_count := 0 }
  else fm2

/-- Freshness of the name counter: every held key is below it.  It holds on
every reachable manager state and is preserved by all operations. -/
def FreshNames (fm : FoodManager) : Prop :=
  ∀ nm ∈ fm.balls, nm < fm.nextName

theorem spawn_add_spec (fm : FoodManager) (h : FreshNames fm) :
    (fm.spawn_add).balls = fm.balls ++ [fm.nextName] ∧
    FreshNames fm.spawn_add ∧
    fm.spawn_add.cfg = fm.cfg := by
  have hnotin : fm.nextName ∉ fm.balls := fun hc =>
    lt_irrefl fm.nextName (h fm.nextName hc)
  have hballs : (fm.spawn_add).balls = fm.balls ++ [fm.nextName] := by
    simp [FoodManager.spawn_add, FoodManager.add_ball, hnotin]
  have hnext : fm.spawn_add.nextName = fm.nextName + 1 := by
    simp [FoodManager.spawn_add, FoodManager.add_ball, hnotin]
  refine ⟨hballs, ?_,
    by simp [FoodManager.spawn_add, FoodManager.add_ball, hnotin]⟩
  intro nm hnm
  rw [hballs] at hnm
  rw [hnext]
  rcases List.mem_append.mp hnm with hnm | hnm
  · exact Nat.lt_succ_of_lt (h nm hnm)
  · rw [List.mem_singleton] at hnm
    subst hnm
    exact Nat.lt_succ_self _

theorem spawn_iterate_spec (n : Nat) (fm : FoodManager) (h : FreshNames fm) :
    (Nat.iterate FoodManager.spawn_add n fm).balls.length =
      fm.balls.length + n ∧
    (∀ nm ∈ fm.balls, nm ∈ (Nat.iterate FoodManager.spawn_add n fm).balls) ∧
    FreshNames (Nat.iterate FoodManager.spawn_add n fm) ∧
    (Nat.iterate FoodManager.spawn_add n fm).cfg = fm.cfg := by
  induction n generalizing fm with
  | zero => exact ⟨rfl, fun nm hnm => hnm, h, rfl⟩
  | succ n ih =>
      have hstep := spawn_add_spec fm h
      have hrec := ih fm.spawn_add hstep.2.1
      rw [Function.iterate_succ_apply] at *
      refine ⟨?_, ?_, hrec.2.2.1, hrec.2.2.2.trans hstep.2.2⟩
      · rw [hrec.1, hstep.1]
        simp only [List.length_append, List.length_singleton]
        omega
      · intro nm hnm
        exact hrec.2.1 nm (by rw [hstep.1]; exact List.mem_append_left _ hnm)

/-- C8: a `step` that crosses the refresh clock grows the food population by
exactly `min(refresh_num, num_max − count)` when that is positive and by
nothing otherwise; a `step` below the clock changes no ball.  Consequently a
step adds at most `refresh_num` balls, removes none, and cannot push the
count above `num_max` unless it already was above. -/
theorem food_step_spec (fm : FoodManager) (d : ℚ) (h : FreshNames fm) :
    (fm.cfg.refresh_time ≤ fm.refresh_time_count + d →
      ((fm.step d).balls.length : ℤ) =
        fm.balls.length +
          max 0 (min (fm.cfg.refresh_num : ℤ)
            ((fm.cfg.num_max : ℤ) - fm.balls.length))) ∧
    (¬ fm.cfg.refresh_time ≤ fm.refresh_time_count + d →
      (fm.step d).balls = fm.balls) ∧
    (fm.step d).balls.length ≤ fm.balls.length + fm.cfg.refresh_num ∧
    (∀ nm ∈ fm.balls, nm ∈ (fm.step d).balls) ∧
    (fm.balls.length ≤ fm.cfg.num_max →
      (fm.step d).balls.length ≤ fm.cfg.num_max) := by
  by_cases hclock : fm.cfg.refresh_time ≤ fm.refresh_time_count + d
  · have hrefresh :
        (fm.step d).balls =
          (Nat.iterate FoodManager.spawn_add
            (FoodManager.todoNum
              { fm with refresh_time_count := fm.refresh_time_count + d })
            { fm with refresh_time_count := fm.refresh_time_count + d }).balls := by
      simp [FoodManager.step, hclock, FoodManager.refresh]
    have hfm2 : FreshNames
        { fm with refresh_time_count := fm.refresh_time_count + d } := h
    have hiter := spawn_iterate_spec
      (FoodManager.todoNum
        { fm with refresh_time_count := fm.refresh_time_count + d })
      { fm with refresh_time_count := fm.refresh_time_count + d } hfm2
    have hlen : (fm.step d).balls.length =
        fm.balls.length +
          FoodManager.todoNum
            { fm with refresh_time_count := fm.refresh_time_count + d } := by
      rw [hrefresh, hiter.1]
    have htodo :
        FoodManager.todoNum
          { fm with refresh_time_count := fm.refresh_time_count + d } =
        (min (fm.cfg.refresh_num : ℤ)
          ((fm.cfg.num_max : ℤ) - fm.balls.length)).toNat := rfl
    refine ⟨fun _ => ?_, fun hc => absurd hclock hc, ?_, ?_, ?_⟩
    · rw [hlen, htodo]
      push_cast
      omega
    · rw [hlen, htodo]
      omega
    · intro nm hnm
      rw [hrefresh]
      exact hiter.2.1 nm hnm
    · intro hle
      rw [hlen, htodo]
      omega
  · have hsame : (fm.step d).balls = fm.balls := by
      simp [FoodManager.step, hclock]
    refine ⟨fun hc => absurd hc hclock, fun _ => hsame, ?_, ?_, ?_⟩
    · rw [hsame]; exact Nat.le_add_right _ _
    · intro nm hnm; rw [hsame]; exact hnm
    · intro hle; rw [hsame]; exact hle

/-- A food manager three balls strong, about to refresh (default
configuration: 30 per refresh, at most 2500, every 2 seconds). -/
def fmC8 : FoodManager :=
  { cfg := { refresh_num := 30, num_max := 2500, refresh_time := 2 },
    refresh_time_count := 2, balls := [0, 1, 2], nextName := 3 }

/-- C8 witness: stepping `fmC8` by one state tick triggers the refresh and
the count grows from 3 by exactly `min(30, 2500 − 3) = 30`. -/
theorem food_step_spec_witness :
    ((fmC8.step (1/20)).balls.length : ℤ) = 33 := by
  have h := food_step_spec fmC8 (1/20) (by intro nm hnm; fin_cases hnm <;>
    norm_num [fmC8])
  rw [h.1 (by norm_num [fmC8])]
  norm_num [fmC8]

/-- Modelled from the spec: the single deterministic RNG source set by
`Server.seed` (server.py lines 386–389 seed both `np.random` and `random`;
every stochastic draw pulls from this source in a fixed order).  The
generator state is explicit and threaded through every draw. -/
structure Rng where
  state : Nat
deriving DecidableEq

/-- `seed(s)`: reset the RNG to a state fully determined by the seed. -/
def mkRng (seed : Nat) : Rng := ⟨seed⟩

/-- One draw: a linear-congruential step, standing in for the library
generator (any pure generator makes the same determinism argument). -/
def rngNext (r : Rng) : Nat × Rng :=
  (r.state % 4294967296, ⟨(r.state * 1103515245 + 12345) % 2147483648⟩)

/-- Modelled from the spec: spawning one food ball at a position drawn from
the RNG (spawn positions are uniform over the border and pull from the
seeded source in fixed order). -/
def drawFood (nm : Nat) (r : Rng) : Ball × Rng :=
  let d1 := rngNext r
  let d2 := rngNext d1.2
  ({ name := nm, kind := BallKind.food, posX := (d1.1 % 1000 : Nat),
     posY := (d2.1 % 1000 : Nat), size := 4, teamName := 0, owner := 0,
     isRemove := false, moving := false }, d2.2)

/-- Modelled from the spec: `seed(s)` followed by `reset()` — the world is
repopulated with draws from the freshly seeded source in a fixed order, the
clock is cleared and the end flag dropped (default timing parameters). -/
def seedReset (numFood : Nat) (seed : Nat) : ServerS (World × Rng) :=
  let init : World × Rng :=
    (List.range numFood).foldl
      (fun acc i =>
        let d := drawFood i acc.2
        ({ acc.1 with foods := acc.1.foods ++ [d.1] }, d.2))
      (({ players := [], thorns := [], spores := [], foods := [] } : World),
        mkRng seed)
  { lastTime := 0, matchTime := 600, stateTickDuration := 1/20,
    ticksPerAction := 4, endFlag := false, world := init }

/-- Drive the server through a stream of action-ticks with `Server.step`,
recording the `done` flag and the state after every action-tick. -/
def runMatch {W A : Type} (tick : Option A → W → W) (s : ServerS W) :
    List (Option A) → List (Bool × ServerS W)
  | [] => []
  | a :: rest =>
      let r := serverStep tick s a
      (r.1, r.2.1) :: runMatch tick r.2.1 rest

/-- The observable snapshot of a server state: the global part
(`last_time`) and every live body a per-player observation is rendered
from. -/
def snapshotOf (s : ServerS (World × Rng)) : ℚ × List Ball :=
  (s.lastTime,
   playerManagerBalls s.world.1.players ++ s.world.1.thorns ++
     s.world.1.spores ++ s.world.1.foods)

/-- C9: two servers seeded with the same value and fed the identical action
stream produce identical state traces, and in particular identical
snapshots at every action-tick: the whole evolution is a function of the
seed and the actions. -/
theorem run_deterministic_from_seed
    (tick : Option (Nat → PAction) → World × Rng → World × Rng)
    (numFood seed : Nat) (acts : List (Option (Nat → PAction)))
    (s1 s2 : ServerS (World × Rng))
    (h1 : s1 = seedReset numFood seed) (h2 : s2 = seedReset numFood seed) :
    runMatch tick s1 acts = runMatch tick s2 acts ∧
    (runMatch tick s1 acts).map (fun r => snapshotOf r.2) =
      (runMatch tick s2 acts).map (fun r => snapshotOf r.2) := by
  subst h1
  subst h2
  exact ⟨rfl, rfl⟩

/-- C9 witness: concrete seed 42, two foods, one empty action-tick, the
identity tick body. -/
theorem run_deterministic_from_seed_witness :
    runMatch (fun (_ : Option (Nat → PAction)) (w : World × Rng) => w)
        (seedReset 2 42) [none] =
      runMatch (fun (_ : Option (Nat → PAction)) (w : World × Rng) => w)
        (seedReset 2 42) [none] :=
  (run_deterministic_from_seed
    (fun (_ : Option (Nat → PAction)) (w : World × Rng) => w) 2 42 [none]
    (seedReset 2 42) (seedReset 2 42) rfl rfl).1

end GoBigger
